import Mathlib

/-!
Verification of the lazydev daemon core against its specification.

The TypeScript sources are shallowly embedded: pure functions become Lean
functions, JS numbers become `ℚ` (all arithmetic in the verified paths is
exact on the inputs considered), nullable values become `Option`, fallible
functions return `Except String`, and the SQLite tables touched by the
state store are modelled as an explicit record for a single project name.
-/

namespace LazyDev

/-! ### Durations (src/lib/config.ts, parseDuration) -/

/-- A value arriving at `parseDuration`: YAML gives a number for unquoted
numerics and a string otherwise (`duration: string | number`). -/
inductive DurationInput where
  | num (q : ℚ)
  | str (s : List Char)
deriving DecidableEq

deriving instance DecidableEq for Except

/-- `parseInt` on an all-digits match: decimal value of the digit list. -/
def digitsToNat (l : List Char) : ℕ :=
  l.foldl (fun a c => 10 * a + (c.toNat - '0'.toNat)) 0

/-- Embeds `parseDuration` (config.ts lines 15-31).  A number is returned
unchanged.  A string must match `^(\d+)(ms|s|m|h)?$`: since no unit starts
with a digit, the first group is exactly the maximal digit run and the
remainder must be empty or one of the four units. -/
def parseDuration : DurationInput → Except String ℚ
  | .num q => .ok q
  | .str s =>
    let ds := s.takeWhile Char.isDigit
    let rest := s.dropWhile Char.isDigit
    if ds = [] then .error ("Invalid duration: " ++ String.mk s)
    else if rest = [] then .ok (digitsToNat ds)          -- unit defaults to "ms"
    else if rest = ['m', 's'] then .ok (digitsToNat ds)
    else if rest = ['s'] then .ok (digitsToNat ds * 1000)
    else if rest = ['m'] then .ok (digitsToNat ds * 60 * 1000)
    else if rest = ['h'] then .ok (digitsToNat ds * 60 * 60 * 1000)
    else .error ("Invalid duration: " ++ String.mk s)

/-- The unit suffixes of the duration grammar together with their
millisecond factors (`no unit = ms`), as the spec words it. -/
def durationUnits : List (List Char × ℚ) :=
  [([], 1), (['m', 's'], 1), (['s'], 1000), (['m'], 60000), (['h'], 3600000)]

/-- The spec's duration grammar `^\d+(ms|s|m|h)?$`: `s` derives the value
`v` when it splits into a nonempty digit run and an optional unit, and `v`
is the decimal value times the unit factor. -/
def DurationGrammar (s : List Char) (v : ℚ) : Prop :=
  ∃ ds u f, s = ds ++ u ∧ ds ≠ [] ∧ (∀ c ∈ ds, c.isDigit) ∧
    (u, f) ∈ durationUnits ∧ v = digitsToNat ds * f

theorem takeWhile_all_append (p : Char → Bool) (ys : List Char)
    (h2 : ∀ y ∈ ys.head?, p y = false) :
    ∀ xs : List Char, (∀ x ∈ xs, p x) →
      (xs ++ ys).takeWhile p = xs ∧ (xs ++ ys).dropWhile p = ys
  | [], _ => by
    cases ys with
    | nil => simp
    | cons y t =>
      have hy := h2 y (by simp)
      simp [List.takeWhile, List.dropWhile, hy]
  | x :: xs, h1 => by
    have hx := h1 x (by simp)
    have hrest := takeWhile_all_append p ys h2 xs (fun a ha => h1 a (by simp [ha]))
    simp [List.takeWhile, List.dropWhile, hx, hrest.1, hrest.2]

theorem parseDuration_str_ok_iff (s : List Char) (v : ℚ) :
    parseDuration (.str s) = .ok v ↔ DurationGrammar s v := by
  constructor
  · intro h
    simp only [parseDuration] at h
    split_ifs at h with h1 h2 h3 h4 h5 h6 <;>
      simp only [Except.ok.injEq, reduceCtorEq] at h
    · exact ⟨s.takeWhile Char.isDigit, s.dropWhile Char.isDigit, 1,
        (List.takeWhile_append_dropWhile Char.isDigit s).symm, h1,
        fun c hc => List.mem_takeWhile_imp hc, by simp [durationUnits, h2],
        by rw [← h, mul_one]⟩
    · exact ⟨s.takeWhile Char.isDigit, s.dropWhile Char.isDigit, 1,
        (List.takeWhile_append_dropWhile Char.isDigit s).symm, h1,
        fun c hc => List.mem_takeWhile_imp hc, by simp [durationUnits, h3],
        by rw [← h, mul_one]⟩
    · exact ⟨s.takeWhile Char.isDigit, s.dropWhile Char.isDigit, 1000,
        (List.takeWhile_append_dropWhile Char.isDigit s).symm, h1,
        fun c hc => List.mem_takeWhile_imp hc, by simp [durationUnits, h4],
        h.symm⟩
    · exact ⟨s.takeWhile Char.isDigit, s.dropWhile Char.isDigit, 60000,
        (List.takeWhile_append_dropWhile Char.isDigit s).symm, h1,
        fun c hc => List.mem_takeWhile_imp hc, by simp [durationUnits, h5],
        by rw [← h]; ring⟩
    · exact ⟨s.takeWhile Char.isDigit, s.dropWhile Char.isDigit, 3600000,
        (List.takeWhile_append_dropWhile Char.isDigit s).symm, h1,
        fun c hc => List.mem_takeWhile_imp hc, by simp [durationUnits, h6],
        by rw [← h]; ring⟩
  · rintro ⟨ds, u, f, rfl, hne, hdig, hu, rfl⟩
    simp only [durationUnits, List.mem_cons, List.not_mem_nil, or_false,
      Prod.mk.injEq] at hu
    rcases hu with ⟨rfl, rfl⟩ | ⟨rfl, rfl⟩ | ⟨rfl, rfl⟩ | ⟨rfl, rfl⟩ | ⟨rfl, rfl⟩ <;>
      [skip;
       (have h2 : ∀ y ∈ (['m', 's'] : List Char).head?, Char.isDigit y = false := by
          intro y hy; simp at hy; subst hy; decide);
       (have h2 : ∀ y ∈ (['s'] : List Char).head?, Char.isDigit y = false := by
          intro y hy; simp at hy; subst hy; decide);
       (have h2 : ∀ y ∈ (['m'] : List Char).head?, Char.isDigit y = false := by
          intro y hy; simp at hy; subst hy; decide);
       (have h2 : ∀ y ∈ (['h'] : List Char).head?, Char.isDigit y = false := by
          intro y hy; simp at hy; subst hy; decide)]
    · have key := takeWhile_all_append Char.isDigit [] (by simp) ds hdig
      simp only [parseDuration, List.append_nil] at key ⊢
      simp [key.1, key.2, hne, mul_one]
    · have key := takeWhile_all_append Char.isDigit ['m', 's'] h2 ds hdig
      simp only [parseDuration] at key ⊢
      simp [key.1, key.2, hne]
    · have key := takeWhile_all_append Char.isDigit ['s'] h2 ds hdig
      simp only [parseDuration] at key ⊢
      simp [key.1, key.2, hne]
    · have key := takeWhile_all_append Char.isDigit ['m'] h2 ds hdig
      simp only [parseDuration] at key ⊢
      simp [key.1, key.2, hne]; ring
    · have key := takeWhile_all_append Char.isDigit ['h'] h2 ds hdig
      simp only [parseDuration] at key ⊢
      simp [key.1, key.2, hne]; ring

/-- Claim C7: `parseDuration` on a string succeeds exactly when the string
matches `^\d+(ms|s|m|h)?$`, returning the numeric value times the unit
factor (ms to 1, s to 1000, m to 60000, h to 3600000, none to 1); in
particular "10m" gives 600000, "30s" gives 30000, "250ms" gives 250,
"1h" gives 3600000, "7" gives 7, and "10x" is rejected. -/
theorem c7_parseDuration_matches_grammar :
    (∀ (s : List Char) (v : ℚ), parseDuration (.str s) = .ok v ↔ DurationGrammar s v) ∧
    parseDuration (.str ['1', '0', 'm']) = .ok 600000 ∧
    parseDuration (.str ['3', '0', 's']) = .ok 30000 ∧
    parseDuration (.str ['2', '5', '0', 'm', 's']) = .ok 250 ∧
    parseDuration (.str ['1', 'h']) = .ok 3600000 ∧
    parseDuration (.str ['7']) = .ok 7 ∧
    parseDuration (.str ['1', '0', 'x']) = .error "Invalid duration: 10x" :=
  ⟨parseDuration_str_ok_iff,
    by simp +decide [parseDuration, digitsToNat] <;> norm_num,
    by simp +decide [parseDuration, digitsToNat] <;> norm_num,
    by simp +decide [parseDuration, digitsToNat] <;> norm_num,
    by simp +decide [parseDuration, digitsToNat] <;> norm_num,
    by simp +decide [parseDuration, digitsToNat] <;> norm_num,
    by simp +decide [parseDuration, digitsToNat]⟩

/-- Claim C10: a numeric input (as YAML produces for unquoted numerics)
is returned unchanged with no validation; negative and fractional numbers
pass through although the duration grammar derives only natural values. -/
theorem c10_parseDuration_number_passthrough :
    (∀ q : ℚ, parseDuration (.num q) = .ok q) ∧
    parseDuration (.num (-5)) = .ok (-5) ∧
    parseDuration (.num (1 / 2)) = .ok (1 / 2) ∧
    (∀ (s : List Char) (v : ℚ), DurationGrammar s v → 0 ≤ v ∧ v.den = 1) :=
  ⟨fun _ => rfl, rfl, rfl, by
    rintro s v ⟨ds, u, f, rfl, hne, hdig, hu, rfl⟩
    simp only [durationUnits, List.mem_cons, List.not_mem_nil, or_false,
      Prod.mk.injEq] at hu
    rcases hu with ⟨rfl, rfl⟩ | ⟨rfl, rfl⟩ | ⟨rfl, rfl⟩ | ⟨rfl, rfl⟩ | ⟨rfl, rfl⟩
    · rw [show ((digitsToNat ds : ℚ) * 1) = ((digitsToNat ds : ℕ) : ℚ) by rw [mul_one]]
      exact ⟨Nat.cast_nonneg _, Rat.den_natCast _⟩
    · rw [show ((digitsToNat ds : ℚ) * 1) = ((digitsToNat ds : ℕ) : ℚ) by rw [mul_one]]
      exact ⟨Nat.cast_nonneg _, Rat.den_natCast _⟩
    · rw [show ((digitsToNat ds : ℚ) * 1000) = ((digitsToNat ds * 1000 : ℕ) : ℚ) by
        push_cast; ring]
      exact ⟨Nat.cast_nonneg _, Rat.den_natCast _⟩
    · rw [show ((digitsToNat ds : ℚ) * 60000) = ((digitsToNat ds * 60000 : ℕ) : ℚ) by
        push_cast; ring]
      exact ⟨Nat.cast_nonneg _, Rat.den_natCast _⟩
    · rw [show ((digitsToNat ds : ℚ) * 3600000) = ((digitsToNat ds * 3600000 : ℕ) : ℚ) by
        push_cast; ring]
      exact ⟨Nat.cast_nonneg _, Rat.den_natCast _⟩⟩

/-! ### Settings and project configuration (src/lib/config.ts, loadConfig) -/

/-- The daemon settings record (lib/types.ts `Settings`). -/
structure Settings where
  proxy_port : ℕ
  idle_timeout : ℚ
  startup_timeout : ℚ
  port_range : ℕ × ℕ
  scan_interval : ℚ
  dynamic_timeout : Bool
  min_timeout : ℚ
  max_timeout : ℚ
deriving DecidableEq

/-- Modelled from the spec: `DEFAULT_SETTINGS` lives in lib/types.ts, which
is not among the provided sources; the values are the spec's defaults
(proxy_port 80, idle_timeout 600000, startup_timeout 30000, port_range
[4000, 4999], scan_interval 30000, dynamic_timeout true, min_timeout
120000, max_timeout 1800000). -/
def DEFAULT_SETTINGS : Settings :=
  { proxy_port := 80, idle_timeout := 600000, startup_timeout := 30000,
    port_range := (4000, 4999), scan_interval := 30000, dynamic_timeout := true,
    min_timeout := 120000, max_timeout := 1800000 }

/-- A per-project configuration after loading (lib/types.ts `ProjectConfig`);
`idle_timeout` is optional in the type, hence `Option`. -/
structure ProjectConfig where
  name : List Char
  cwd : List Char
  start_cmd : List Char
  idle_timeout : Option ℚ
  disabled : Option Bool
deriving DecidableEq

/-- A raw YAML project stanza as the parser hands it to `loadConfig`:
every field may be absent. -/
structure YamlProject where
  cwd : Option (List Char)
  start_cmd : Option (List Char)
  idle_timeout : Option DurationInput
  disabled : Option Bool
deriving DecidableEq

/-- JS truthiness of a duration value: the number 0 and the empty string
are falsy, everything else is truthy. -/
def DurationInput.truthy : DurationInput → Bool
  | .num q => decide (q ≠ 0)
  | .str s => decide (s ≠ [])

/-- Embeds the per-project part of `loadConfig` (config.ts lines 70-78):
`idle_timeout: project.idle_timeout ? parseDuration(project.idle_timeout)
: settings.idle_timeout` — a truthiness test, so both an absent value and
a literal 0 fall back to `settings.idle_timeout`.  Tilde expansion of
`cwd` is environment-dependent and orthogonal to the claims, so the path
is kept verbatim. -/
def loadProject (settings : Settings) (name : List Char) (p : YamlProject) :
    Except String ProjectConfig := do
  let idle : ℚ ←
    match p.idle_timeout with
    | some d => if d.truthy then parseDuration d else Except.ok settings.idle_timeout
    | none => Except.ok settings.idle_timeout
  Except.ok { name := name, cwd := p.cwd.getD [], start_cmd := p.start_cmd.getD [],
              idle_timeout := some idle, disabled := p.disabled }

/-! ### Idle controller (src/lib/idle.ts) -/

/-- The runtime state of one project (lib/types.ts `ProjectState`). -/
structure ProjectState where
  name : List Char
  port : Option ℤ
  pid : Option ℤ
  status : String
  last_activity : Option ℚ
  started_at : Option ℚ
  websocket_connections : ℤ
deriving DecidableEq

/-- Persisted metrics of one project (lib/types.ts `ProjectMetrics`). -/
structure ProjectMetrics where
  cold_start_time : Option ℚ
  request_history : List ℚ
deriving DecidableEq

/-- The threshold/score table of `calculateActivityScore` (idle.ts
lines 14-20); scores 1.0, 0.8, 0.6, 0.4, 0.2 written as exact rationals. -/
def activityWindows : List (ℚ × ℚ) :=
  [(30000, 1), (60000, 4 / 5), (120000, 3 / 5), (300000, 2 / 5), (600000, 1 / 5)]

/-- The `for (const window of windows)` walk of `calculateActivityScore`. -/
def calculateActivityScoreAux (now : ℚ) (requestHistory : List ℚ) :
    List (ℚ × ℚ) → ℚ
  | [] => 0
  | (threshold, score) :: rest =>
    if 3 ≤ (requestHistory.filter (fun t => decide (now - t < threshold))).length
    then score
    else calculateActivityScoreAux now requestHistory rest

/-- Embeds `calculateActivityScore` (idle.ts lines 12-30); `Date.now()` is
threaded explicitly. -/
def calculateActivityScore (now : ℚ) (requestHistory : List ℚ) : ℚ :=
  calculateActivityScoreAux now requestHistory activityWindows

/-- Embeds `calculateDynamicTimeout` (idle.ts lines 32-57); the metrics
read `getProjectMetrics(state.name)` is threaded explicitly. -/
def calculateDynamicTimeout (now : ℚ) (state : ProjectState) (settings : Settings)
    (metrics : ProjectMetrics) : ℚ :=
  if !settings.dynamic_timeout then settings.idle_timeout
  else
    let coldStartTime := metrics.cold_start_time.getD 5000
    let coldStartFactor := coldStartTime / 5000
    let wsMultiplier : ℚ := if 0 < state.websocket_connections then 2 else 1
    let activityScore := calculateActivityScore now metrics.request_history
    let activityMultiplier := 1 / 2 + activityScore * (1 / 2)
    let baseTimeout : ℚ := 5 * 60 * 1000
    max settings.min_timeout (min settings.max_timeout
      (baseTimeout * coldStartFactor * wsMultiplier * activityMultiplier))

/-- The `timeout` selected by one scan iteration (idle.ts lines 86-88):
the project config's `idle_timeout` when defined, else the dynamic
timeout. -/
def scanTimeout (now : ℚ) (settings : Settings) (state : ProjectState)
    (cfg : Option ProjectConfig) (metrics : ProjectMetrics) : ℚ :=
  match cfg.bind ProjectConfig.idle_timeout with
  | some t => t
  | none => calculateDynamicTimeout now state settings metrics

/-- What one iteration of the idle scan does to one project. -/
inductive ScanAction where
  | skip
  | touch
  | stop
deriving DecidableEq

/-- Embeds the body of the scan loop of `startIdleWatcher` (idle.ts lines
70-98) for a single project: `touch` is the `updateActivity` branch for
live WebSocket connections, `stop` is the `stopProject` call.  The
`!state.last_activity` test is JS truthiness, so a 0 timestamp also
skips. -/
def scanStep (now : ℚ) (settings : Settings) (state : ProjectState)
    (cfg : Option ProjectConfig) (metrics : ProjectMetrics) : ScanAction :=
  if state.status ≠ "running" then .skip
  else if (cfg.bind ProjectConfig.disabled).getD false then .skip
  else if 0 < state.websocket_connections then .touch
  else
    match state.last_activity with
    | none => .skip
    | some la =>
      if la = 0 then .skip
      else if cfg.bind ProjectConfig.idle_timeout = some 0 then .skip
      else if scanTimeout now settings state cfg metrics ≤ now - la then .stop
      else .skip

/-- Embeds `getEffectiveTimeout` (idle.ts lines 112-120): with no state
row the settings default is returned; otherwise the config override or
the dynamic timeout, exactly the scan's selection. -/
def getEffectiveTimeout (now : ℚ) (settings : Settings)
    (state : Option ProjectState) (cfg : Option ProjectConfig)
    (metrics : ProjectMetrics) : ℚ :=
  match state with
  | none => settings.idle_timeout
  | some st => scanTimeout now settings st cfg metrics

/-! ### Claims C1-C3: end-to-end idle behaviour -/

/-- A YAML stanza that sets `idle_timeout: 0` ("never auto-stop"). -/
def yamlZeroIdle : YamlProject :=
  { cwd := some ['/', 'a'], start_cmd := some ['r', 'u', 'n'],
    idle_timeout := some (.num 0), disabled := none }

/-- The same stanza with `idle_timeout` absent ("use dynamic timeout"). -/
def yamlNoIdle : YamlProject :=
  { cwd := some ['/', 'a'], start_cmd := some ['r', 'u', 'n'],
    idle_timeout := none, disabled := none }

/-- A running project, no WebSockets, last active at t = 1000 ms. -/
def idleProjectState : ProjectState :=
  { name := ['a'], port := some 4000, pid := some 1, status := "running",
    last_activity := some 1000, started_at := some 0, websocket_connections := 0 }

/-- Metrics of a project never cold-started and with no recorded requests. -/
def emptyMetrics : ProjectMetrics :=
  { cold_start_time := none, request_history := [] }

/-- What `loadConfig` actually produces for both stanzas above under the
default settings: `idle_timeout` silently becomes 600000. -/
def loadedDefaultCfg : ProjectConfig :=
  { name := ['a'], cwd := ['/', 'a'], start_cmd := ['r', 'u', 'n'],
    idle_timeout := some 600000, disabled := none }

/-- Claim C1 (refuted, code bug): a project whose YAML sets
`idle_timeout: 0` is supposed never to auto-stop, but `loadConfig` tests
the value for JS truthiness, so 0 is replaced by `settings.idle_timeout`
(600000 by default); the scan's `idle_timeout === 0` guard never fires
and the project is stopped once idle for 600000 ms. -/
theorem c1_zero_idle_timeout_project_is_stopped :
    yamlZeroIdle.idle_timeout = some (.num 0) ∧
    loadProject DEFAULT_SETTINGS ['a'] yamlZeroIdle = .ok loadedDefaultCfg ∧
    scanStep 601000 DEFAULT_SETTINGS idleProjectState (some loadedDefaultCfg)
      emptyMetrics = .stop := by
  refine ⟨rfl, ?_, ?_⟩
  · simp [loadProject, yamlZeroIdle, DurationInput.truthy, DEFAULT_SETTINGS,
      loadedDefaultCfg, Bind.bind, Except.bind]
  · simp [scanStep, scanTimeout, idleProjectState, loadedDefaultCfg,
      DEFAULT_SETTINGS, emptyMetrics]
    norm_num

/-- Claim C2 (refuted, code bug): with `idle_timeout` absent from the YAML
and `dynamic_timeout` true, the scan is supposed to use the clamped
dynamic timeout, but `loadConfig` fills the absent field with
`settings.idle_timeout`, so the scan consults 600000 while the dynamic
computation would give 150000 (base 300000 x cold 1 x ws 1 x activity
1/2, clamped to [120000, 1800000]). -/
theorem c2_absent_idle_timeout_never_dynamic :
    yamlNoIdle.idle_timeout = none ∧
    DEFAULT_SETTINGS.dynamic_timeout = true ∧
    loadProject DEFAULT_SETTINGS ['a'] yamlNoIdle = .ok loadedDefaultCfg ∧
    scanTimeout 601000 DEFAULT_SETTINGS idleProjectState (some loadedDefaultCfg)
      emptyMetrics = 600000 ∧
    calculateDynamicTimeout 601000 idleProjectState DEFAULT_SETTINGS
      emptyMetrics = 150000 := by
  refine ⟨rfl, rfl, ?_, ?_, ?_⟩
  · simp [loadProject, yamlNoIdle, DEFAULT_SETTINGS, loadedDefaultCfg,
      Bind.bind, Except.bind]
  · simp [scanTimeout, loadedDefaultCfg]
  · simp [calculateDynamicTimeout, calculateActivityScore,
      calculateActivityScoreAux, activityWindows, DEFAULT_SETTINGS,
      idleProjectState, emptyMetrics]
    norm_num

/-- Settings with `dynamic_timeout` on whose plain `idle_timeout` lies
below `min_timeout`. -/
def lowIdleSettings : Settings :=
  { proxy_port := 80, idle_timeout := 0, startup_timeout := 30000,
    port_range := (4000, 4999), scan_interval := 30000, dynamic_timeout := true,
    min_timeout := 100, max_timeout := 200 }

/-- Claim C3 counterexample: with `dynamic_timeout` true but no state row
for the name, `getEffectiveTimeout` returns `settings.idle_timeout`
unclamped, here 0 < min_timeout = 100. -/
theorem c3_counterexample_unclamped_without_state :
    lowIdleSettings.dynamic_timeout = true ∧
    getEffectiveTimeout 0 lowIdleSettings none none emptyMetrics = 0 ∧
    ¬ (lowIdleSettings.min_timeout ≤
        getEffectiveTimeout 0 lowIdleSettings none none emptyMetrics) := by
  refine ⟨rfl, rfl, ?_⟩
  simp [getEffectiveTimeout, lowIdleSettings]

/-- Claim C3 as amended: when `dynamic_timeout` is true, the clamp bounds
are ordered, a state row exists, and the project configuration does not
set `idle_timeout`, the effective timeout is clamped to
[min_timeout, max_timeout]. -/
theorem c3_effective_timeout_clamped (now : ℚ) (settings : Settings)
    (st : ProjectState) (cfg : Option ProjectConfig) (metrics : ProjectMetrics)
    (hdyn : settings.dynamic_timeout = true)
    (hord : settings.min_timeout ≤ settings.max_timeout)
    (hcfg : cfg.bind ProjectConfig.idle_timeout = none) :
    settings.min_timeout ≤ getEffectiveTimeout now settings (some st) cfg metrics ∧
    getEffectiveTimeout now settings (some st) cfg metrics ≤ settings.max_timeout := by
  unfold getEffectiveTimeout scanTimeout
  rw [hcfg]
  unfold calculateDynamicTimeout
  rw [hdyn]
  simp only [Bool.not_true, Bool.false_eq_true, if_false]
  exact ⟨le_max_left _ _, max_le hord (min_le_left _ _)⟩

/-- Witness for the amended C3 at the default settings with an existing
state row and no per-project override. -/
theorem c3_effective_timeout_clamped_witness :
    DEFAULT_SETTINGS.min_timeout ≤
      getEffectiveTimeout 601000 DEFAULT_SETTINGS (some idleProjectState) none
        emptyMetrics ∧
    getEffectiveTimeout 601000 DEFAULT_SETTINGS (some idleProjectState) none
      emptyMetrics ≤ DEFAULT_SETTINGS.max_timeout :=
  c3_effective_timeout_clamped 601000 DEFAULT_SETTINGS idleProjectState none
    emptyMetrics rfl (by norm_num [DEFAULT_SETTINGS]) rfl

/-! ### Claim C4: the dynamic timeout refines the spec formula -/

/-- The activity score as the spec words it (section 4.D): walk the
thresholds 30 s, 60 s, 120 s, 300 s, 600 s in order and return the first
score (1.0, 0.8, 0.6, 0.4, 0.2) for which at least three history
timestamps fall within now − threshold, else 0.0. -/
def specActivityScore (now : ℚ) (history : List ℚ) : ℚ :=
  if 3 ≤ history.countP (fun t => decide (now - t < 30000)) then 1
  else if 3 ≤ history.countP (fun t => decide (now - t < 60000)) then 4 / 5
  else if 3 ≤ history.countP (fun t => decide (now - t < 120000)) then 3 / 5
  else if 3 ≤ history.countP (fun t => decide (now - t < 300000)) then 2 / 5
  else if 3 ≤ history.countP (fun t => decide (now - t < 600000)) then 1 / 5
  else 0

/-- The dynamic timeout as the spec's closed formula: base = 300000 ms,
cold_factor = (cold_start_time if known else 5000)/5000, ws_mult = 2 when
websocket_connections > 0 else 1, activity_mult = 0.5 + 0.5 x score,
result = base x cold_factor x ws_mult x activity_mult clamped to
[min_timeout, max_timeout]. -/
def specDynamicTimeout (now : ℚ) (st : ProjectState) (settings : Settings)
    (metrics : ProjectMetrics) : ℚ :=
  let base : ℚ := 300000
  let cold := metrics.cold_start_time.getD 5000
  let cold_factor := cold / 5000
  let ws_mult : ℚ := if 0 < st.websocket_connections then 2 else 1
  let activity_mult := 1 / 2 + (1 / 2) * specActivityScore now metrics.request_history
  min settings.max_timeout
    (max settings.min_timeout (base * cold_factor * ws_mult * activity_mult))

/-- Claim C4: when `dynamic_timeout` is true (and the clamp interval is
ordered, so that "clamped to [min_timeout, max_timeout]" is meaningful),
`calculateDynamicTimeout` computes exactly the spec's formula. -/
theorem c4_dynamic_timeout_matches_spec (now : ℚ) (st : ProjectState)
    (settings : Settings) (metrics : ProjectMetrics)
    (hdyn : settings.dynamic_timeout = true)
    (hord : settings.min_timeout ≤ settings.max_timeout) :
    calculateDynamicTimeout now st settings metrics
      = specDynamicTimeout now st settings metrics := by
  have hscore : calculateActivityScore now metrics.request_history
      = specActivityScore now metrics.request_history := by
    simp [calculateActivityScore, calculateActivityScoreAux, activityWindows,
      specActivityScore, List.countP_eq_length_filter]
  unfold calculateDynamicTimeout specDynamicTimeout
  rw [hdyn]
  simp only [Bool.not_true, Bool.false_eq_true, if_false]
  rw [max_min_distrib_left, max_eq_right hord, hscore]
  congr 1
  congr 1
  ring

/-- Witness for C4 at the default settings with three recent requests and
a known cold-start time. -/
theorem c4_dynamic_timeout_matches_spec_witness :
    calculateDynamicTimeout 100000 idleProjectState DEFAULT_SETTINGS
      { cold_start_time := some 10000, request_history := [80000, 90000, 95000] }
      = specDynamicTimeout 100000 idleProjectState DEFAULT_SETTINGS
          { cold_start_time := some 10000, request_history := [80000, 90000, 95000] } :=
  c4_dynamic_timeout_matches_spec 100000 idleProjectState DEFAULT_SETTINGS
    { cold_start_time := some 10000, request_history := [80000, 90000, 95000] }
    rfl (by norm_num [DEFAULT_SETTINGS])

/-! ### Claim C5: validateConfig (src/lib/config.ts lines 84-102) -/

/-- Embeds the test `/^[a-z][a-z0-9-]*$/i.test(name)`: the `i` flag makes
the letter classes case-insensitive, so this accepts either case. -/
def matchesNameRegex (s : List Char) : Bool :=
  match s with
  | [] => false
  | c :: rest => c.isAlpha && rest.all (fun d => d.isAlpha || d.isDigit || d == '-')

/-- The error string pushed for a bad project name. -/
def nameErrorMsg (name : List Char) : String :=
  "Project name \"" ++ String.mk name ++ "\" must be alphanumeric with hyphens, start with letter"

/-- The error string pushed for a missing cwd. -/
def cwdErrorMsg (name : List Char) : String :=
  "Project \"" ++ String.mk name ++ "\" missing cwd"

/-- The error string pushed for a missing start_cmd. -/
def cmdErrorMsg (name : List Char) : String :=
  "Project \"" ++ String.mk name ++ "\" missing start_cmd"

/-- Embeds `validateConfig` (config.ts lines 84-102): iterate over the
`Object.entries` of the projects map, pushing error strings. -/
def validateConfig (projects : List (List Char × ProjectConfig)) : List String :=
  projects.foldl (fun errors e =>
    let errors1 := if !matchesNameRegex e.1 then errors ++ [nameErrorMsg e.1] else errors
    let errors2 := if e.2.cwd = [] then errors1 ++ [cwdErrorMsg e.1] else errors1
    if e.2.start_cmd = [] then errors2 ++ [cmdErrorMsg e.1] else errors2) []

/-- The errors contributed by one entry, in push order. -/
def projectErrors (e : List Char × ProjectConfig) : List String :=
  (if !matchesNameRegex e.1 then [nameErrorMsg e.1] else []) ++
  (if e.2.cwd = [] then [cwdErrorMsg e.1] else []) ++
  (if e.2.start_cmd = [] then [cmdErrorMsg e.1] else [])

/-- The spec's project-name rule: case-sensitive `^[a-z][a-z0-9-]*$` and
length at most 63. -/
def specNameValid (s : List Char) : Bool :=
  (match s with
   | [] => false
   | c :: rest => c.isLower && rest.all (fun d => d.isLower || d.isDigit || d == '-')) &&
  decide (s.length ≤ 63)

theorem validateConfig_eq_flatMap (projects : List (List Char × ProjectConfig)) :
    validateConfig projects = projects.flatMap projectErrors := by
  have step : ∀ (l : List (List Char × ProjectConfig)) (init : List String),
      l.foldl (fun errors e =>
        let errors1 := if !matchesNameRegex e.1 then errors ++ [nameErrorMsg e.1] else errors
        let errors2 := if e.2.cwd = [] then errors1 ++ [cwdErrorMsg e.1] else errors1
        if e.2.start_cmd = [] then errors2 ++ [cmdErrorMsg e.1] else errors2) init
        = init ++ l.flatMap projectErrors := by
    intro l
    induction l with
    | nil => intro init; simp
    | cons e rest ih =>
      intro init
      rw [List.foldl_cons, ih, List.flatMap_cons]
      have : (let errors1 := if !matchesNameRegex e.1 then init ++ [nameErrorMsg e.1] else init
              let errors2 := if e.2.cwd = [] then errors1 ++ [cwdErrorMsg e.1] else errors1
              if e.2.start_cmd = [] then errors2 ++ [cmdErrorMsg e.1] else errors2)
          = init ++ projectErrors e := by
        simp only [projectErrors]
        split_ifs <;> simp
      rw [this, List.append_assoc]
  unfold validateConfig
  rw [step projects [], List.nil_append]

/-- Claim C5 counterexample: the uppercase name "A" and a 64-character
lowercase name both violate the spec's name rule, yet `validateConfig`
returns no error for either project. -/
theorem c5_counterexample_uppercase_and_long_names_accepted :
    validateConfig [(['A'],
      { name := ['A'], cwd := ['/', 'a'], start_cmd := ['r'],
        idle_timeout := none, disabled := none })] = [] ∧
    specNameValid ['A'] = false ∧
    validateConfig [(List.replicate 64 'a',
      { name := List.replicate 64 'a', cwd := ['/', 'a'], start_cmd := ['r'],
        idle_timeout := none, disabled := none })] = [] ∧
    specNameValid (List.replicate 64 'a') = false := by
  refine ⟨?_, by decide, ?_, by decide⟩ <;> decide

/-- Claim C5 as amended: `validateConfig` reports an error for a project
exactly when its name fails the case-insensitive regex
`^[a-z][a-z0-9-]*$/i` (no length limit is enforced), or its cwd is empty,
or its start_cmd is empty; the errors of all projects are collected in
iteration order, and each failing check contributes its error naming the
project. -/
theorem c5_validateConfig_characterization
    (projects : List (List Char × ProjectConfig)) :
    validateConfig projects = projects.flatMap projectErrors ∧
    (validateConfig projects = [] ↔
      ∀ e ∈ projects, matchesNameRegex e.1 ∧ e.2.cwd ≠ [] ∧ e.2.start_cmd ≠ []) ∧
    (∀ e ∈ projects, ¬ matchesNameRegex e.1 →
      nameErrorMsg e.1 ∈ validateConfig projects) ∧
    (∀ e ∈ projects, e.2.cwd = [] → cwdErrorMsg e.1 ∈ validateConfig projects) ∧
    (∀ e ∈ projects, e.2.start_cmd = [] →
      cmdErrorMsg e.1 ∈ validateConfig projects) := by
  have hflat := validateConfig_eq_flatMap projects
  refine ⟨hflat, ?_, ?_, ?_, ?_⟩
  · rw [hflat, List.flatMap_eq_nil_iff]
    constructor
    · intro h e he
      have := h e he
      simp only [projectErrors, List.append_eq_nil] at this
      refine ⟨?_, ?_, ?_⟩ <;> by_contra hc <;> simp [hc] at this
    · intro h e he
      obtain ⟨h1, h2, h3⟩ := h e he
      simp [projectErrors, h1, h2, h3]
  · intro e he hn
    rw [hflat, List.mem_flatMap]
    exact ⟨e, he, by simp [projectErrors, hn]⟩
  · intro e he hc
    rw [hflat, List.mem_flatMap]
    exact ⟨e, he, by simp [projectErrors, hc]⟩
  · intro e he hs
    rw [hflat, List.mem_flatMap]
    exact ⟨e, he, by simp [projectErrors, hs]⟩

/-- An entry failing all three checks: digit-leading name, empty cwd,
empty start_cmd. -/
def badEntry : List Char × ProjectConfig :=
  (['9'], { name := ['9'], cwd := [], start_cmd := [],
            idle_timeout := none, disabled := none })

/-- Witness for the amended C5: a name starting with a digit, an empty
cwd and an empty start_cmd each produce their error. -/
theorem c5_validateConfig_characterization_witness :
    nameErrorMsg badEntry.1 ∈ validateConfig [badEntry] ∧
    cwdErrorMsg badEntry.1 ∈ validateConfig [badEntry] ∧
    cmdErrorMsg badEntry.1 ∈ validateConfig [badEntry] :=
  ⟨(c5_validateConfig_characterization [badEntry]).2.2.1 badEntry (by simp)
      (by decide),
   (c5_validateConfig_characterization [badEntry]).2.2.2.1 badEntry (by simp)
      (by decide),
   (c5_validateConfig_characterization [badEntry]).2.2.2.2 badEntry (by simp)
      (by decide)⟩

/-! ### State store (src/lib/state.ts), modelled for one project name

The `projects` and `metrics` tables are keyed by name and every operation
below touches a single key, so the store is modelled as the (optional)
row of each table for one fixed project. -/

/-- The two table rows for one project name. -/
structure StateDB where
  proj : Option ProjectState
  metrics : Option ProjectMetrics
deriving DecidableEq

/-- Embeds `getProjectState` (state.ts lines 75-90): `null` when the row
is absent, otherwise the row (the model keeps `websocket_connections`
non-null, as every write does). -/
def getProjectState (db : StateDB) : Option ProjectState := db.proj

/-- Embeds `getProjectMetrics` (state.ts lines 151-168): a default record
with null cold-start and empty history when the row is absent. -/
def getProjectMetrics (db : StateDB) : ProjectMetrics :=
  match db.metrics with
  | none => { cold_start_time := none, request_history := [] }
  | some m => m

/-- JS `array.slice(-20)`: the last (at most) 20 elements. -/
def sliceLast20 (l : List ℚ) : List ℚ := l.drop (l.length - 20)

/-- Embeds `addRequestToHistory` (state.ts lines 187-204): append the
timestamp, keep the 20 most recent, then either UPDATE the existing row
(when `cold_start_time` is known the row necessarily exists) or INSERT OR
REPLACE a row carrying the old `cold_start_time` (null) and the new
history. -/
def addRequestToHistory (timestamp : ℚ) (db : StateDB) : StateDB :=
  let metrics := getProjectMetrics db
  let history := sliceLast20 (metrics.request_history ++ [timestamp])
  match metrics.cold_start_time with
  | some _ =>
    { db with metrics := db.metrics.map (fun m => { m with request_history := history }) }
  | none =>
    { db with metrics := some { cold_start_time := metrics.cold_start_time,
                                request_history := history } }

/-- Embeds `updateActivity` (state.ts lines 111-120): stamp
`last_activity` on the projects row (an UPDATE, hence a no-op when the
row is absent) and append to the request history. -/
def updateActivity (now : ℚ) (db : StateDB) : StateDB :=
  let db1 := { db with proj := db.proj.map (fun p => { p with last_activity := some now }) }
  addRequestToHistory now db1

/-- A sequence of `updateActivity` calls at the given clock readings. -/
def runUpdateActivity (times : List ℚ) (db : StateDB) : StateDB :=
  times.foldl (fun d t => updateActivity t d) db

/-! ### Claim C8: updateActivity maintains the history invariants -/

theorem sliceLast20_concat (h : List ℚ) (t : ℚ) :
    sliceLast20 (h ++ [t]) = h.drop (h.length + 1 - 20) ++ [t] := by
  unfold sliceLast20
  rw [List.length_append, List.drop_append_eq_append_drop]
  have h1 : h.length + [t].length - 20 = h.length + 1 - 20 := by simp
  have h2 : h.length + 1 - 20 - h.length = 0 := by omega
  rw [h1, h2, List.drop_zero]

theorem sliceLast20_length (l : List ℚ) : (sliceLast20 l).length ≤ 20 := by
  unfold sliceLast20
  rw [List.length_drop]
  omega

theorem updateActivity_step (now : ℚ) (db : StateDB) :
    (getProjectMetrics (updateActivity now db)).cold_start_time
        = (getProjectMetrics db).cold_start_time ∧
    (getProjectMetrics (updateActivity now db)).request_history
        = sliceLast20 ((getProjectMetrics db).request_history ++ [now]) ∧
    (updateActivity now db).metrics.isSome = true ∧
    (updateActivity now db).proj
        = db.proj.map (fun p => { p with last_activity := some now }) := by
  unfold updateActivity addRequestToHistory
  cases hm : db.metrics with
  | none => simp [getProjectMetrics, hm]
  | some m =>
    cases hc : m.cold_start_time with
    | none => simp [getProjectMetrics, hm, hc]
    | some c => simp [getProjectMetrics, hm, hc]

theorem sliceLast20_concat_getLast (h : List ℚ) (t : ℚ) :
    (sliceLast20 (h ++ [t])).getLast? = some t := by
  rw [sliceLast20_concat]
  exact List.getLast?_concat _

theorem sliceLast20_concat_sorted (h : List ℚ) (t : ℚ)
    (hs : h.Sorted (· ≤ ·)) (hb : ∀ x ∈ h, x ≤ t) :
    (sliceLast20 (h ++ [t])).Sorted (· ≤ ·) := by
  rw [sliceLast20_concat]
  rw [List.Sorted, List.pairwise_append]
  refine ⟨hs.sublist (List.drop_sublist _ _), List.pairwise_singleton _ t, ?_⟩
  intro x hx y hy
  rw [List.mem_singleton] at hy
  subst hy
  exact hb x (List.drop_subset _ _ hx)

theorem sliceLast20_concat_mem (h : List ℚ) (t : ℚ)
    (hb : ∀ x ∈ h, x ≤ t) :
    ∀ x ∈ sliceLast20 (h ++ [t]), x ≤ t := by
  rw [sliceLast20_concat]
  intro x hx
  rcases List.mem_append.mp hx with hx | hx
  · exact hb x (List.drop_subset _ _ hx)
  · rw [List.mem_singleton] at hx
    exact le_of_eq hx

theorem c8_aux : ∀ (times : List ℚ) (db : StateDB) (t0 : ℚ),
    List.Chain' (· ≤ ·) (t0 :: times) →
    (getProjectMetrics db).request_history.Sorted (· ≤ ·) →
    (getProjectMetrics db).request_history.length ≤ 20 →
    (∀ x ∈ (getProjectMetrics db).request_history, x ≤ t0) →
    (getProjectMetrics (runUpdateActivity times db)).request_history.Sorted (· ≤ ·) ∧
    (getProjectMetrics (runUpdateActivity times db)).request_history.length ≤ 20 ∧
    (getProjectMetrics (runUpdateActivity times db)).cold_start_time
        = (getProjectMetrics db).cold_start_time ∧
    (∀ x ∈ (getProjectMetrics (runUpdateActivity times db)).request_history,
        x ≤ (t0 :: times).getLast (List.cons_ne_nil t0 times)) ∧
    (times ≠ [] →
      (runUpdateActivity times db).metrics.isSome = true ∧
      (getProjectMetrics (runUpdateActivity times db)).request_history.getLast?
          = times.getLast? ∧
      (runUpdateActivity times db).proj.map (fun p => p.last_activity)
          = db.proj.map (fun _ => times.getLast?))
  | [], db, t0 => by
    intro _ hs hl hm
    refine ⟨hs, hl, rfl, ?_, fun h => absurd rfl h⟩
    simpa using hm
  | t :: rest, db, t0 => by
    intro hchain hs hl hm
    have ht0t : t0 ≤ t := (List.chain'_cons.mp hchain).1
    have hchain1 : List.Chain' (· ≤ ·) (t :: rest) :=
      (List.chain'_cons.mp hchain).2
    have hmt : ∀ x ∈ (getProjectMetrics db).request_history, x ≤ t :=
      fun x hx => (hm x hx).trans ht0t
    have step := updateActivity_step t db
    have hrun : runUpdateActivity (t :: rest) db
        = runUpdateActivity rest (updateActivity t db) := rfl
    have ih := c8_aux rest (updateActivity t db) t hchain1
      (by rw [step.2.1]; exact sliceLast20_concat_sorted _ t hs hmt)
      (by rw [step.2.1]; exact sliceLast20_length _)
      (by rw [step.2.1]; exact sliceLast20_concat_mem _ t hmt)
    rw [hrun]
    refine ⟨ih.1, ih.2.1, ih.2.2.1.trans step.1, ?_, fun _ => ?_⟩
    · have hgl : (t0 :: t :: rest).getLast (List.cons_ne_nil t0 (t :: rest))
          = (t :: rest).getLast (List.cons_ne_nil t rest) :=
        List.getLast_cons (List.cons_ne_nil t rest)
      rw [hgl]
      exact ih.2.2.2.1
    · cases rest with
      | nil =>
        refine ⟨?_, ?_, ?_⟩
        · simpa [runUpdateActivity] using step.2.2.1
        · simp only [runUpdateActivity, List.foldl_nil]
          rw [step.2.1, sliceLast20_concat_getLast]
          simp
        · simp only [runUpdateActivity, List.foldl_nil, step.2.2.2]
          rw [Option.map_map]
          rfl
      | cons r2 rest2 =>
        have hne : (r2 :: rest2 : List ℚ) ≠ [] := List.cons_ne_nil r2 rest2
        obtain ⟨hsome, hlast, hproj⟩ := ih.2.2.2.2 hne
        refine ⟨hsome, ?_, ?_⟩
        · rw [hlast, List.getLast?_cons_cons]
        · rw [hproj, step.2.2.2, Option.map_map, List.getLast?_cons_cons]
          rfl

/-- Claim C8: after any sequence of `updateActivity` calls under a
non-decreasing clock (starting from a store whose history is sorted, at
most 20 long, and entirely at or before the initial instant), the stored
request history stays sorted ascending with length at most 20; each call
appends the current time as the newest entry, drops the oldest beyond 20,
persists the new history unconditionally (also when `cold_start_time` is
not yet known) and preserves the stored `cold_start_time`; after a
nonempty sequence the metrics row exists, the newest history entry is the
last clock reading, and `last_activity` on an existing projects row
equals that reading. -/
theorem c8_updateActivity_history_invariants
    (times : List ℚ) (db : StateDB) (t0 : ℚ)
    (hchain : List.Chain' (· ≤ ·) (t0 :: times))
    (hsorted : (getProjectMetrics db).request_history.Sorted (· ≤ ·))
    (hlen : (getProjectMetrics db).request_history.length ≤ 20)
    (hmem : ∀ x ∈ (getProjectMetrics db).request_history, x ≤ t0) :
    (∀ (t : ℚ) (d : StateDB),
      (getProjectMetrics (updateActivity t d)).request_history
          = sliceLast20 ((getProjectMetrics d).request_history ++ [t]) ∧
      (getProjectMetrics (updateActivity t d)).cold_start_time
          = (getProjectMetrics d).cold_start_time ∧
      (updateActivity t d).metrics.isSome = true ∧
      (updateActivity t d).proj
          = d.proj.map (fun p => { p with last_activity := some t })) ∧
    (getProjectMetrics (runUpdateActivity times db)).request_history.Sorted (· ≤ ·) ∧
    (getProjectMetrics (runUpdateActivity times db)).request_history.length ≤ 20 ∧
    (getProjectMetrics (runUpdateActivity times db)).cold_start_time
        = (getProjectMetrics db).cold_start_time ∧
    (times ≠ [] →
      (runUpdateActivity times db).metrics.isSome = true ∧
      (getProjectMetrics (runUpdateActivity times db)).request_history.getLast?
          = times.getLast? ∧
      (runUpdateActivity times db).proj.map (fun p => p.last_activity)
          = db.proj.map (fun _ => times.getLast?)) := by
  obtain ⟨h1, h2, h3, _, h5⟩ := c8_aux times db t0 hchain hsorted hlen hmem
  refine ⟨fun t d => ?_, h1, h2, h3, h5⟩
  obtain ⟨s1, s2, s3, s4⟩ := updateActivity_step t d
  exact ⟨s2, s1, s3, s4⟩

/-- A store with both rows present, history [1, 2], cold start 7 ms. -/
def c8db : StateDB :=
  { proj := some { name := ['a'], port := none, pid := none, status := "running",
                   last_activity := some 2, started_at := none,
                   websocket_connections := 0 },
    metrics := some { cold_start_time := some 7, request_history := [1, 2] } }

/-- Witness for C8 at the concrete store above with clock readings 3, 4. -/
theorem c8_witness :
    (getProjectMetrics (runUpdateActivity [3, 4] c8db)).request_history.Sorted (· ≤ ·) ∧
    (getProjectMetrics (runUpdateActivity [3, 4] c8db)).cold_start_time = some 7 ∧
    (getProjectMetrics (runUpdateActivity [3, 4] c8db)).request_history.getLast?
        = some 4 := by
  obtain ⟨_, hsorted, _, hcold, hrest⟩ :=
    c8_updateActivity_history_invariants [3, 4] c8db 2
      (by norm_num [List.chain'_cons, List.chain'_singleton])
      (by norm_num [List.sorted_cons, getProjectMetrics, c8db])
      (by norm_num [getProjectMetrics, c8db])
      (by
        intro x hx
        simp [getProjectMetrics, c8db] at hx
        rcases hx with rfl | rfl <;> norm_num)
  obtain ⟨_, hlast, _⟩ := hrest (by simp)
  exact ⟨hsorted, by rw [hcold]; rfl, by rw [hlast]; rfl⟩

/-! ### Claim C9: setProjectState upsert and round-trip -/

/-- A `Partial<ProjectState>` argument: a field is `some v` when the
property is present (`name` is never written by the UPDATE and is taken
from the call for the INSERT, so it is not part of the partial). -/
structure PartialState where
  port : Option (Option ℤ) := none
  pid : Option (Option ℤ) := none
  status : Option String := none
  last_activity : Option (Option ℚ) := none
  started_at : Option (Option ℚ) := none
  websocket_connections : Option ℤ := none
deriving DecidableEq

/-- The JS spread `{ ...existing, ...state }` as the UPDATE writes it
(state.ts lines 97-102); the name column is not touched. -/
def mergeRow (p : PartialState) (existing : ProjectState) : ProjectState :=
  { name := existing.name
    port := p.port.getD existing.port
    pid := p.pid.getD existing.pid
    status := p.status.getD existing.status
    last_activity := p.last_activity.getD existing.last_activity
    started_at := p.started_at.getD existing.started_at
    websocket_connections :=
      p.websocket_connections.getD existing.websocket_connections }

/-- The INSERT row (state.ts lines 103-107): defaults are null ports and
timestamps, status "stopped", 0 WebSocket connections. -/
def insertRow (name : List Char) (p : PartialState) : ProjectState :=
  { name := name
    port := p.port.getD none
    pid := p.pid.getD none
    status := p.status.getD "stopped"
    last_activity := p.last_activity.getD none
    started_at := p.started_at.getD none
    websocket_connections := p.websocket_connections.getD 0 }

/-- Embeds `setProjectState` (state.ts lines 92-109). -/
def setProjectState (name : List Char) (p : PartialState) (db : StateDB) : StateDB :=
  match getProjectState db with
  | some existing => { db with proj := some (mergeRow p existing) }
  | none => { db with proj := some (insertRow name p) }

/-- Claim C9: `setProjectState` has upsert semantics and
`getProjectState` round-trips it — with an existing row the read-back
equals the prior state overwritten exactly on the fields present in the
partial, every unmentioned field unchanged; with no row a row is created
from the partial's fields with defaults (status "stopped", 0 WebSocket
connections, null elsewhere), and reading back yields those values. -/
theorem c9_setProjectState_upsert_roundtrip
    (name : List Char) (p : PartialState) (db : StateDB) :
    (∀ ex, getProjectState db = some ex →
      ∃ r, getProjectState (setProjectState name p db) = some r ∧
        (p.port = none → r.port = ex.port) ∧
        (∀ v, p.port = some v → r.port = v) ∧
        (p.pid = none → r.pid = ex.pid) ∧
        (∀ v, p.pid = some v → r.pid = v) ∧
        (p.status = none → r.status = ex.status) ∧
        (∀ v, p.status = some v → r.status = v) ∧
        (p.last_activity = none → r.last_activity = ex.last_activity) ∧
        (∀ v, p.last_activity = some v → r.last_activity = v) ∧
        (p.started_at = none → r.started_at = ex.started_at) ∧
        (∀ v, p.started_at = some v → r.started_at = v) ∧
        (p.websocket_connections = none →
          r.websocket_connections = ex.websocket_connections) ∧
        (∀ v, p.websocket_connections = some v → r.websocket_connections = v)) ∧
    (getProjectState db = none →
      ∃ r, getProjectState (setProjectState name p db) = some r ∧
        r.name = name ∧
        (p.port = none → r.port = none) ∧
        (∀ v, p.port = some v → r.port = v) ∧
        (p.pid = none → r.pid = none) ∧
        (∀ v, p.pid = some v → r.pid = v) ∧
        (p.status = none → r.status = "stopped") ∧
        (∀ v, p.status = some v → r.status = v) ∧
        (p.last_activity = none → r.last_activity = none) ∧
        (∀ v, p.last_activity = some v → r.last_activity = v) ∧
        (p.started_at = none → r.started_at = none) ∧
        (∀ v, p.started_at = some v → r.started_at = v) ∧
        (p.websocket_connections = none → r.websocket_connections = 0) ∧
        (∀ v, p.websocket_connections = some v → r.websocket_connections = v)) := by
  constructor
  · intro ex hex
    unfold setProjectState
    rw [hex]
    refine ⟨mergeRow p ex, rfl, ?_, ?_, ?_, ?_, ?_, ?_, ?_, ?_, ?_, ?_, ?_, ?_⟩ <;>
      unfold mergeRow <;>
      first
        | (intro h; rw [h]; rfl)
        | (intro v h; rw [h]; rfl)
  · intro hex
    unfold setProjectState
    rw [hex]
    refine ⟨insertRow name p, rfl, rfl, ?_, ?_, ?_, ?_, ?_, ?_, ?_, ?_, ?_, ?_, ?_, ?_⟩ <;>
      unfold insertRow <;>
      first
        | (intro h; rw [h]; rfl)
        | (intro v h; rw [h]; rfl)

/-- A store with an existing projects row. -/
def c9db : StateDB :=
  { proj := some { name := ['a'], port := some 4000, pid := some 9,
                   status := "running", last_activity := some 5,
                   started_at := some 1, websocket_connections := 2 },
    metrics := none }

/-- A partial write that only sets `port`. -/
def c9partial : PartialState := { port := some (some 5) }

/-- Witness for C9: an update that keeps unmentioned fields and an
insert that applies the defaults. -/
theorem c9_witness :
    (∃ r, getProjectState (setProjectState ['a'] c9partial c9db) = some r ∧
      r.port = some 5 ∧ r.status = "running" ∧ r.websocket_connections = 2) ∧
    (∃ r, getProjectState
        (setProjectState ['b'] c9partial { proj := none, metrics := none })
        = some r ∧ r.port = some 5 ∧ r.status = "stopped" ∧
        r.websocket_connections = 0) := by
  constructor
  · obtain ⟨r, hr, h⟩ :=
      (c9_setProjectState_upsert_roundtrip ['a'] c9partial c9db).1
        { name := ['a'], port := some 4000, pid := some 9, status := "running",
          last_activity := some 5, started_at := some 1,
          websocket_connections := 2 } rfl
    exact ⟨r, hr, h.2.1 (some 5) rfl, h.2.2.2.2.1 rfl, h.2.2.2.2.2.2.2.2.2.2.1 rfl⟩
  · obtain ⟨r, hr, hname, h⟩ :=
      (c9_setProjectState_upsert_roundtrip ['b'] c9partial
        { proj := none, metrics := none }).2 rfl
    exact ⟨r, hr, h.2.1 (some 5) rfl, h.2.2.2.2.1 rfl, h.2.2.2.2.2.2.2.2.2.2.1 rfl⟩

/-! ### Claim C6: findAvailablePort (src/lib/port.ts lines 41-57)

The kernel's listening set (what `getUsedPorts` returns from `ss`) and the
in-process reservation set are explicit parameters; the returned pair
carries the updated reservation set (`usedPorts.add(port)`), and the
error branch returns the set unchanged. -/

/-- The `for (let port = minPort; port <= maxPort; port++)` loop, with
the remaining iteration count as fuel. -/
def findAvailGo (systemUsed usedPorts : Finset ℕ) (p : ℕ) : ℕ → Option ℕ
  | 0 => none
  | fuel + 1 =>
    if p ∉ systemUsed ∧ p ∉ usedPorts then some p
    else findAvailGo systemUsed usedPorts (p + 1) fuel

/-- Embeds `findAvailablePort`: scan the inclusive range ascending for
the first port in neither set; reserve and return it, or fail with the
NoPortsAvailable error when the range is exhausted. -/
def findAvailablePort (systemUsed usedPorts : Finset ℕ) (settings : Settings) :
    Except String (ℕ × Finset ℕ) :=
  match findAvailGo systemUsed usedPorts settings.port_range.1
      (settings.port_range.2 + 1 - settings.port_range.1) with
  | some p => .ok (p, insert p usedPorts)
  | none => .error ("No available ports in range "
      ++ toString settings.port_range.1 ++ "-" ++ toString settings.port_range.2)

theorem findAvailGo_some (K R : Finset ℕ) :
    ∀ (fuel p q : ℕ), findAvailGo K R p fuel = some q →
      p ≤ q ∧ q < p + fuel ∧ q ∉ K ∧ q ∉ R ∧
      ∀ r, p ≤ r → r < q → r ∈ K ∨ r ∈ R
  | 0, p, q => by simp [findAvailGo]
  | fuel + 1, p, q => by
    intro h
    simp only [findAvailGo] at h
    split_ifs at h with hc
    · obtain ⟨h1, h2⟩ := hc
      obtain rfl : p = q := Option.some.injEq .. ▸ h
      exact ⟨le_refl _, by omega, h1, h2, fun r hr1 hr2 => by omega⟩
    · have ih := findAvailGo_some K R fuel (p + 1) q h
      have hp : p ∈ K ∨ p ∈ R := by
        rcases Decidable.not_and_iff_or_not.mp hc with h1 | h1
        · exact Or.inl (not_not.mp h1)
        · exact Or.inr (not_not.mp h1)
      refine ⟨by omega, by omega, ih.2.2.1, ih.2.2.2.1, ?_⟩
      intro r hr1 hr2
      rcases eq_or_lt_of_le hr1 with rfl | hlt
      · exact hp
      · exact ih.2.2.2.2 r (by omega) hr2

theorem findAvailGo_none (K R : Finset ℕ) :
    ∀ (fuel p : ℕ), findAvailGo K R p fuel = none ↔
      ∀ r, p ≤ r → r < p + fuel → r ∈ K ∨ r ∈ R
  | 0, p => by
    simp only [findAvailGo]
    exact ⟨fun _ r h1 h2 => absurd h2 (by omega), fun _ => trivial⟩
  | fuel + 1, p => by
    simp only [findAvailGo]
    split_ifs with hc
    · simp only [reduceCtorEq, false_iff, not_forall]
      push_neg
      exact ⟨p, le_refl _, by omega, hc⟩
    · rw [findAvailGo_none K R fuel (p + 1)]
      have hp : p ∈ K ∨ p ∈ R := by
        rcases Decidable.not_and_iff_or_not.mp hc with h1 | h1
        · exact Or.inl (not_not.mp h1)
        · exact Or.inr (not_not.mp h1)
      constructor
      · intro h r hr1 hr2
        rcases eq_or_lt_of_le hr1 with rfl | hlt
        · exact hp
        · exact h r (by omega) (by omega)
      · intro h r hr1 hr2
        exact h r (by omega) (by omega)

/-- Claim C6: `findAvailablePort` returns the smallest port of the
inclusive range that is neither kernel-listening nor reserved, adding it
to the reservation set; when every port of the range is taken it fails
with the NoPortsAvailable error (and, the model being functional, the
reservation set is returned unchanged by not being returned at all). -/
theorem c6_findAvailablePort_least (K R : Finset ℕ) (settings : Settings) :
    (∀ p R2, findAvailablePort K R settings = .ok (p, R2) →
      settings.port_range.1 ≤ p ∧ p ≤ settings.port_range.2 ∧ p ∉ K ∧ p ∉ R ∧
      R2 = insert p R ∧
      ∀ q, settings.port_range.1 ≤ q → q < p → q ∈ K ∨ q ∈ R) ∧
    ((∃ p, settings.port_range.1 ≤ p ∧ p ≤ settings.port_range.2 ∧
        p ∉ K ∧ p ∉ R) →
      ∃ p R2, findAvailablePort K R settings = .ok (p, R2)) ∧
    ((∀ p, settings.port_range.1 ≤ p → p ≤ settings.port_range.2 →
        p ∈ K ∨ p ∈ R) →
      ∃ msg, findAvailablePort K R settings = .error msg) := by
  refine ⟨?_, ?_, ?_⟩
  · intro p R2 h
    unfold findAvailablePort at h
    cases hgo : findAvailGo K R settings.port_range.1
        (settings.port_range.2 + 1 - settings.port_range.1) with
    | none => rw [hgo] at h; exact absurd h (by simp)
    | some q =>
      rw [hgo] at h
      simp only [Except.ok.injEq, Prod.mk.injEq] at h
      obtain ⟨rfl, rfl⟩ := h
      obtain ⟨g1, g2, g3, g4, g5⟩ := findAvailGo_some K R _ _ _ hgo
      exact ⟨g1, by omega, g3, g4, rfl, g5⟩
  · rintro ⟨p, hp1, hp2, hp3, hp4⟩
    unfold findAvailablePort
    cases hgo : findAvailGo K R settings.port_range.1
        (settings.port_range.2 + 1 - settings.port_range.1) with
    | none =>
      exfalso
      exact ((findAvailGo_none K R _ _).mp hgo p hp1 (by omega)).elim hp3 hp4
    | some q => exact ⟨q, insert q R, rfl⟩
  · intro h
    unfold findAvailablePort
    cases hgo : findAvailGo K R settings.port_range.1
        (settings.port_range.2 + 1 - settings.port_range.1) with
    | none => exact ⟨_, rfl⟩
    | some q =>
      exfalso
      obtain ⟨g1, g2, g3, g4, _⟩ := findAvailGo_some K R _ _ _ hgo
      exact (h q g1 (by omega)).elim g3 g4

/-- Settings with the three-port range 4000-4002. -/
def portSettings : Settings :=
  { proxy_port := 80, idle_timeout := 600000, startup_timeout := 30000,
    port_range := (4000, 4002), scan_interval := 30000, dynamic_timeout := true,
    min_timeout := 120000, max_timeout := 1800000 }

/-- Witness for C6: with 4000 kernel-used and 4001 reserved, port 4002
is picked, it is in range, free, and minimal. -/
theorem c6_witness :
    (4000 : ℕ) ≤ 4002 ∧ (4002 : ℕ) ≤ 4002 ∧
    (4002 : ℕ) ∉ ({4000} : Finset ℕ) ∧ (4002 : ℕ) ∉ ({4001} : Finset ℕ) ∧
    insert (4002 : ℕ) ({4001} : Finset ℕ) = insert 4002 {4001} ∧
    (∀ q, 4000 ≤ q → q < 4002 → q ∈ ({4000} : Finset ℕ) ∨ q ∈ ({4001} : Finset ℕ)) :=
  (c6_findAvailablePort_least {4000} {4001} portSettings).1 4002 (insert 4002 {4001})
    (by decide)

/-- Witness for C7: the iff instantiated at the concrete string "7",
discharging the left-hand side by evaluation. -/
theorem c7_parseDuration_matches_grammar_witness :
    DurationGrammar ['7'] 7 :=
  (c7_parseDuration_matches_grammar.1 ['7'] 7).mp
    (by simp +decide [parseDuration, digitsToNat] <;> norm_num)

/-- Witness for C10: the grammar-values component instantiated at "7",
whose derived value is the natural number 7. -/
theorem c10_parseDuration_number_passthrough_witness :
    (0 : ℚ) ≤ 7 ∧ (7 : ℚ).den = 1 :=
  c10_parseDuration_number_passthrough.2.2.2 ['7'] 7
    ⟨['7'], [], 1, by decide, by decide, by decide, by simp [durationUnits],
      by norm_num [digitsToNat, List.foldl]; decide⟩
